import Mathlib

/-!
Shallow embedding of `src/spatialmap.js` (davidfig/spatialMap), a uniform-grid
2D spatial index.  Coordinates are modelled as `Int` (JavaScript numbers at the
integer inputs the claims are about); `Math.floor(a / b)` on integers is
`Int.fdiv a b`.  Objects are identified by natural-number ids; the JavaScript
fields attached to caller objects (`AABB`, `spatial`, `checked`) become fields
of `Obj`.  The grid array is modelled as a total function `Int → List Nat`
(every bucket the source ever reads or writes is created empty by the
constructor; out-of-range indices are never accessed on the executions the
theorems below are about, because the clamped coverage range is then in
bounds).  `object.spatial.maps` stores bucket *references* in the source; for
a single map, bucket identity is its row-major index, which is what we store.
-/

namespace SpatialMapModel

/-- Bounding box `[x1, y1, x2, y2]` as used throughout the source. -/
structure AABB where
  x1 : Int
  y1 : Int
  x2 : Int
  y2 : Int
deriving DecidableEq, Repr

/-- The `object.spatial` record created by `insert`: the list of buckets
currently holding the object (as row-major indices) and the cached cell range
of the last insertion.  The cached coordinates start out absent (`undefined`
in JavaScript, compared with `!==` against numbers), hence `Option Int`. -/
structure Spatial where
  maps : List Int
  xStart : Option Int
  yStart : Option Int
  xEnd : Option Int
  yEnd : Option Int
deriving DecidableEq, Repr

/-- A caller object as seen by the index: its AABB, its `spatial` handle
(absent until the first insertion) and its `checked` dedupe stamp (absent
until first visited by a callback query). -/
structure Obj where
  aabb : AABB
  spatial : Option Spatial
  checked : Option Int
deriving DecidableEq, Repr

/-- The `SpatialMap` instance fields set up by the constructor. -/
structure SpatialMap where
  cellSize : Int
  width : Int
  height : Int
  count : Int
  grid : Int → List Nat
  list : Option (List Nat)

/-- Whole-world state: the map instance, the store of caller objects (the
source mutates fields on the caller's objects), and the module-level `checked`
counter used for query deduplication. -/
structure St where
  map : SpatialMap
  objs : Nat → Obj
  checked : Int

/-- JavaScript `Math.ceil(a / b)` on integer arguments, `b ≠ 0`:
`⌈a / b⌉ = -⌊-a / b⌋`. -/
def jsCeilDiv (a b : Int) : Int := -(Int.fdiv (-a) b)

/-- The constructor (`constructor(cellSize, width, height, options)`): computes
the grid dimensions by ceiling division and fills every bucket with an empty
array.  The source performs no argument validation whatsoever. -/
def SpatialMap.create (cellSize width height : Int) (update : Bool) : SpatialMap :=
  let w := jsCeilDiv width cellSize
  let h := jsCeilDiv height cellSize
  { cellSize := cellSize
    width := w
    height := h
    count := w * h
    grid := fun _ => []
    list := if update then some [] else none }

/-- The clamped cell range computed identically at the top of `insert`,
`query` and `queryCallback`. -/
structure Coverage where
  xStart : Int
  yStart : Int
  xEnd : Int
  yEnd : Int
deriving DecidableEq, Repr

/-- Coverage computation shared (verbatim, inlined three times) by `insert`,
`query` and `queryCallback`:
`xStart = Math.floor(AABB[0] / cellSize)`, clamped below at `0`;
`xEnd = Math.floor((AABB[2] - 1) / cellSize)`, clamped above at `width - 1`;
and likewise for `y`.  Note the starts are only clamped from below and the
ends only from above. -/
def coverage (m : SpatialMap) (a : AABB) : Coverage :=
  let xStart := Int.fdiv a.x1 m.cellSize
  let xStart := if xStart < 0 then 0 else xStart
  let yStart := Int.fdiv a.y1 m.cellSize
  let yStart := if yStart < 0 then 0 else yStart
  let xEnd := Int.fdiv (a.x2 - 1) m.cellSize
  let xEnd := if m.width ≤ xEnd then m.width - 1 else xEnd
  let yEnd := Int.fdiv (a.y2 - 1) m.cellSize
  let yEnd := if m.height ≤ yEnd then m.height - 1 else yEnd
  ⟨xStart, yStart, xEnd, yEnd⟩

/-- The integers from `a` to `b` inclusive (empty when `b < a`), the values a
JavaScript loop `for (v = a; v <= b; v++)` runs through. -/
def intRange (a b : Int) : List Int :=
  (List.range (b + 1 - a).toNat).map (fun (k : Nat) => a + (k : Int))

/-- Row-major bucket indices `y * width + x` visited by the nested loops
`for (y = yStart; y <= yEnd; y++) for (x = xStart; x <= xEnd; x++)`. -/
def rangeCells (m : SpatialMap) (c : Coverage) : List Int :=
  (intRange c.yStart c.yEnd).flatMap
    (fun y => (intRange c.xStart c.xEnd).map (fun x => y * m.width + x))

/-- The fresh handle `{maps: []}` created on first insertion; the cached cell
range fields are not yet present. -/
def freshSpatial : Spatial := ⟨[], none, none, none, none⟩

/-- Point-update of the object store. -/
def updObj (objs : Nat → Obj) (id : Nat) (o : Obj) : Nat → Obj :=
  fun n => if n = id then o else objs n

/-- First half of `insert`: `if (!object.spatial) { object.spatial = {maps: []};
if (this.list) { this.list.push(object); } }`. -/
def ensureHandle (st : St) (id : Nat) : St :=
  match (st.objs id).spatial with
  | some _ => st
  | none =>
      let m := match st.map.list with
               | some l => { st.map with list := some (l ++ [id]) }
               | none => st.map
      { st with map := m
                objs := updObj st.objs id { st.objs id with spatial := some freshSpatial } }

/-- One iteration of `insert`'s nested loops: `list.push(object);
object.spatial.maps.push(list);` at bucket index `b`. -/
def pushCell (st : St) (id : Nat) (b : Int) : St :=
  let g := st.map.grid
  let o := st.objs id
  { st with
    map := { st.map with grid := fun b' => if b' = b then g b ++ [id] else g b' }
    objs := updObj st.objs id
      { o with spatial := o.spatial.map (fun sp => { sp with maps := sp.maps ++ [b] }) } }

/-- JavaScript `Array.prototype.indexOf`: position of the first occurrence, or
`-1` when absent. -/
def jsIndexOf (l : List Nat) (x : Nat) : Int :=
  match l.findIdx? (fun y => y = x) with
  | some n => (n : Int)
  | none => -1

/-- JavaScript `Array.prototype.splice(start)` with a single argument: deletes
every element from the (negatively-wrapped, clamped) start index through the
end of the array, keeping only the prefix before it. -/
def jsSpliceFrom (l : List Nat) (i : Int) : List Nat :=
  let s : Nat := if i < 0 then (i + l.length).toNat else min i.toNat l.length
  l.take s

/-- The source's `remove(object, replace)`.  The `while (maps.length)` loop
pops bucket references and, guarded by `index !== -1`, splices out the first
occurrence of the object from each (`List.erase`); popping from the end is
modelled by folding over `sp.maps.reverse`.  The cached cell range of the
handle is *not* cleared.  Afterwards, when an update list exists and `replace`
is not set, `list.splice(list.indexOf(object))` runs — `splice` with a single
argument, which truncates the list from that index (or, when the object is
absent and `indexOf` yields `-1`, drops the last element). -/
def remove (st : St) (id : Nat) (replace : Bool) : St :=
  let o := st.objs id
  let st1 :=
    match o.spatial with
    | some sp =>
        let g := sp.maps.reverse.foldl
          (fun (g : Int → List Nat) b => fun b' => if b' = b then (g b).erase id else g b')
          st.map.grid
        { st with
          map := { st.map with grid := g }
          objs := updObj st.objs id ({ o with spatial := some ({ sp with maps := [] }) }) }
    | none => st
  match st1.map.list, replace with
  | some l, false =>
      { st1 with map := { st1.map with list := some (jsSpliceFrom l (jsIndexOf l id)) } }
  | _, _ => st1

/-- Last lines of `insert`'s changed branch: store the newly computed coverage
into the handle. -/
def setCached (st : St) (id : Nat) (c : Coverage) : St :=
  let o := st.objs id
  let o' := { o with spatial := o.spatial.map (fun sp =>
          { sp with xStart := some c.xStart, yStart := some c.yStart,
                    xEnd := some c.xEnd, yEnd := some c.yEnd }) }
  { st with objs := updObj st.objs id o' }

/-- The source's `insert(object)`: create the handle if absent, compute the
clamped coverage, and — only when it differs from the cached one (the source
tests the disjunction of `!==`; we test the equivalent negated conjunction) —
remove the object from its previous buckets, push it into every bucket of the
new range, and cache the range.  The loop bounds are fixed before the interior
`remove` call and `this.width`/`this.height` are unchanged by it, so computing
`rangeCells` up front is faithful. -/
def insertBody (st1 : St) (id : Nat) (sp : Spatial) (c : Coverage) : St :=
  if sp.xStart = some c.xStart ∧ sp.yStart = some c.yStart ∧
     sp.xEnd = some c.xEnd ∧ sp.yEnd = some c.yEnd then
    st1
  else
    let st2 := if sp.maps.isEmpty then st1 else remove st1 id true
    let st3 := (rangeCells st1.map c).foldl (fun s b => pushCell s id b) st2
    setCached st3 id c

def insert (st : St) (id : Nat) : St :=
  let st1 := ensureHandle st id
  match (st1.objs id).spatial with
  | none => st1
  | some sp => insertBody st1 id sp (coverage st1.map ((st1.objs id).aabb))

/-- The source's `query(AABB)`: concatenate the contents of every bucket in
the coverage range (skipping empty buckets, which does not change the result).
The named source file declares `results` with `const` and then reassigns it —
a `TypeError` at runtime on any non-empty result; we follow the working
variant of the same function in the unnamed source file, which uses `var`. -/
def query (st : St) (a : AABB) : List Nat :=
  let c := coverage st.map a
  (rangeCells st.map c).foldl
    (fun res b =>
      let l := st.map.grid b
      if l.length ≠ 0 then res ++ l else res) []

/-- Shared traversal core of `queryCallback` and `queryCallbackArticle`: walk
the candidate objects in order; skip any whose `checked` stamp equals the
current one; otherwise invoke the callback — returning early (leaving the
object unstamped) when it signals stop — and stamp the object.  Returns the
updated object store, the list of objects actually passed to the callback (in
call order), and the early-return flag. -/
def qcbGo (stamp : Int) (cb : Nat → Bool) : List Nat → (Nat → Obj) → ((Nat → Obj) × List Nat × Bool)
  | [], objs => (objs, [], false)
  | id :: rest, objs =>
      let o := objs id
      if o.checked = some stamp then
        qcbGo stamp cb rest objs
      else if cb id then
        (objs, [id], true)
      else
        let r := qcbGo stamp cb rest (updObj objs id { o with checked := some stamp })
        (r.1, id :: r.2.1, r.2.2)

/-- The source's `queryCallback(AABB, callback)`: advance the module-level
`checked` counter once, then traverse the buckets of the AABB's coverage with
the dedupe protocol of `qcbGo`.  The callback is modelled as pure, so the grid
is unchanged during traversal and flattening the covered buckets up front is
faithful to the nested loops. -/
def queryCallback (st : St) (a : AABB) (cb : Nat → Bool) : St × List Nat × Bool :=
  let c := coverage st.map a
  let stamp := st.checked + 1
  let ids := (rangeCells st.map c).flatMap (fun b => st.map.grid b)
  let r := qcbGo stamp cb ids st.objs
  ({ st with objs := r.1, checked := stamp }, r.2.1, r.2.2)

/-- The source's `queryCallbackArticle(article, callback)`: advance the
counter, stamp the article itself with the new value (the source does so
twice, which is idempotent), then traverse the buckets listed in the
article's own handle with the same dedupe protocol.  The source dereferences
`article.spatial.maps` unconditionally (a `TypeError` on a never-inserted
article); the model reads an empty list in that case, and the theorem about
this operation assumes the article has a handle. -/
def queryCallbackArticle (st : St) (id : Nat) (cb : Nat → Bool) : St × List Nat × Bool :=
  let stamp := st.checked + 1
  let o := st.objs id
  let objs0 := updObj st.objs id { o with checked := some stamp }
  let maps := ((objs0 id).spatial.map Spatial.maps).getD []
  let ids := maps.flatMap (fun b => st.map.grid b)
  let r := qcbGo stamp cb ids objs0
  ({ st with objs := r.1, checked := stamp }, r.2.1, r.2.2)

/-- The source's `update()`: re-insert every object in the update list (the
source caches the length and indexes; `insert` never appends to the list of
an object that already has a handle, so folding over a snapshot is faithful). -/
def update (st : St) : St :=
  match st.map.list with
  | none => st
  | some l => l.foldl (fun s id => insert s id) st

/-- The buckets denoted by a handle's cached cell range (empty when no range
has been cached yet). -/
def bucketsOfRange (m : SpatialMap) (sp : Spatial) : List Int :=
  match sp.xStart, sp.yStart, sp.xEnd, sp.yEnd with
  | some xs, some ys, some xe, some ye => rangeCells m ⟨xs, ys, xe, ye⟩
  | _, _, _, _ => []

/-- Per-object bucket-membership invariant actually maintained by the code:
an object without a handle is in no bucket; an object with a handle occurs
exactly once in each bucket listed in `maps` and nowhere else, `maps` has no
duplicates, and `maps` is either empty (after a `remove`, which does not clear
the cached range) or exactly the buckets of the cached range. -/
def handleOk (st : St) (id : Nat) : Prop :=
  ((st.objs id).spatial = none → ∀ b : Int, (st.map.grid b).count id = 0) ∧
  ∀ sp : Spatial, (st.objs id).spatial = some sp →
    (∀ b : Int, (st.map.grid b).count id = (if b ∈ sp.maps then 1 else 0)) ∧
    sp.maps.Nodup ∧
    (sp.maps = [] ∨ sp.maps = bucketsOfRange st.map sp)

/-- Global state invariant: every object satisfies `handleOk`. -/
def StInv (st : St) : Prop := ∀ id : Nat, handleOk st id

/-- Concrete scenario map from the spec: `cellSize = 10`, world `100 × 100`
(a `10 × 10` grid of 100 buckets), no update tracking. -/
def m0 : SpatialMap := SpatialMap.create 10 100 100 false

/-- World state over `m0` in which every object carries the AABB `a`, nothing
has been inserted, and the dedupe counter starts at `0`. -/
def baseSt (a : AABB) : St :=
  { map := m0, objs := fun _ => ⟨a, none, none⟩, checked := 0 }

/-- Same world but with the `update` option, so the map tracks inserted
objects in `list`. -/
def baseStU (a : AABB) : St :=
  { map := SpatialMap.create 10 100 100 true
    objs := fun _ => ⟨a, none, none⟩
    checked := 0 }

/-! Basic lemmas about the store update and integer ranges. -/

@[simp]
lemma updObj_self (objs : Nat → Obj) (id : Nat) (o : Obj) : updObj objs id o id = o := by
  simp [updObj]

lemma updObj_ne (objs : Nat → Obj) (id : Nat) (o : Obj) {j : Nat} (h : j ≠ id) :
    updObj objs id o j = objs j := by
  simp [updObj, h]

lemma mem_intRange {a b x : Int} : x ∈ intRange a b ↔ a ≤ x ∧ x ≤ b := by
  unfold intRange
  constructor
  · intro hx
    obtain ⟨k, hk, he⟩ := List.mem_map.mp hx
    have hk' := List.mem_range.mp hk
    omega
  · rintro ⟨h1, h2⟩
    refine List.mem_map.mpr ⟨(x - a).toNat, List.mem_range.mpr ?_, ?_⟩
    · omega
    · omega

/-- Claim C3, helper: when the handle's cached cell range equals the newly
computed coverage, `insert` returns the state unchanged. -/
lemma insert_skip_of_cached_eq (st : St) (id : Nat) (sp : Spatial)
    (h : (st.objs id).spatial = some sp)
    (h1 : sp.xStart = some (coverage st.map ((st.objs id).aabb)).xStart)
    (h2 : sp.yStart = some (coverage st.map ((st.objs id).aabb)).yStart)
    (h3 : sp.xEnd = some (coverage st.map ((st.objs id).aabb)).xEnd)
    (h4 : sp.yEnd = some (coverage st.map ((st.objs id).aabb)).yEnd) :
    insert st id = st := by
  have he : ensureHandle st id = st := by
    unfold ensureHandle
    rw [h]
  unfold insert
  simp only [he, h]
  unfold insertBody
  rw [if_pos ⟨h1, h2, h3, h4⟩]

/-- C3: re-inserting an item whose newly computed coverage equals the cached
one performs zero bucket mutations; indeed the whole state is untouched. -/
theorem insert_unchanged_coverage_noop (st : St) (id : Nat) (sp : Spatial)
    (h : (st.objs id).spatial = some sp)
    (h1 : sp.xStart = some (coverage st.map ((st.objs id).aabb)).xStart)
    (h2 : sp.yStart = some (coverage st.map ((st.objs id).aabb)).yStart)
    (h3 : sp.xEnd = some (coverage st.map ((st.objs id).aabb)).xEnd)
    (h4 : sp.yEnd = some (coverage st.map ((st.objs id).aabb)).yEnd) :
    insert st id = st :=
  insert_skip_of_cached_eq st id sp h h1 h2 h3 h4

/-- Witness for C3: the spec's scenario item with AABB `(5,5,15,15)` in the
`10 × 10` grid; after the first insertion its cached range is `(0,0)-(1,1)`
and re-inserting it is a complete no-op. -/
theorem insert_unchanged_coverage_noop_witness :
    ((insert (baseSt ⟨5, 5, 15, 15⟩) 0).objs 0).spatial =
      some ⟨[0, 1, 10, 11], some 0, some 0, some 1, some 1⟩ ∧
    insert (insert (baseSt ⟨5, 5, 15, 15⟩) 0) 0 = insert (baseSt ⟨5, 5, 15, 15⟩) 0 :=
  ⟨by decide,
   insert_unchanged_coverage_noop (insert (baseSt ⟨5, 5, 15, 15⟩) 0) 0
     ⟨[0, 1, 10, 11], some 0, some 0, some 1, some 1⟩
     (by decide) (by decide) (by decide) (by decide) (by decide)⟩

/-- C1 counterexample: an item whose AABB lies entirely beyond the world's
right edge gets an empty clamped coverage range (`xStart = 20 > xEnd = 9`), so
`insert` places it in no bucket and the immediately following `query` with the
same AABB does not contain it. -/
theorem insert_out_of_bounds_query_misses :
    0 ∉ query (insert (baseSt ⟨200, 5, 210, 15⟩) 0) ⟨200, 5, 210, 15⟩ := by
  decide

/-- C6 counterexample: an AABB entirely outside the world (here fully to the
lower-left) is not clamped to a non-empty valid range: the start coordinates
are clamped up to `0` but the end coordinates (`-2`) are only clamped from
above, leaving an empty range, and `insert` records an empty bucket list. -/
theorem coverage_fully_outside_empty :
    (coverage m0 ⟨-30, -30, -10, -10⟩).xEnd < (coverage m0 ⟨-30, -30, -10, -10⟩).xStart ∧
    rangeCells m0 (coverage m0 ⟨-30, -30, -10, -10⟩) = [] ∧
    ((insert (baseSt ⟨-30, -30, -10, -10⟩) 0).objs 0).spatial =
      some ⟨[], some 0, some 0, some (-2), some (-2)⟩ := by
  decide

/-- C7 counterexample: the zero-area AABB `(10,10,10,10)` sits exactly on a
cell boundary of the `cellSize = 10` grid; `xStart = ⌊10/10⌋ = 1` but
`xEnd = ⌊(10-1)/10⌋ = 0`, an empty range rather than a single cell. -/
theorem coverage_degenerate_boundary_not_single :
    (coverage m0 ⟨10, 10, 10, 10⟩).xStart = 1 ∧
    (coverage m0 ⟨10, 10, 10, 10⟩).xEnd = 0 ∧
    rangeCells m0 (coverage m0 ⟨10, 10, 10, 10⟩) = [] := by
  decide

/-- C8 counterexample: the constructor performs no argument validation; with
`cellSize = -5` it silently succeeds, computing a garbage grid of width and
height `-2` with `count = 4`. -/
theorem create_nonpositive_cellSize_succeeds :
    (SpatialMap.create (-5) 10 10 false).width = -2 ∧
    (SpatialMap.create (-5) 10 10 false).height = -2 ∧
    (SpatialMap.create (-5) 10 10 false).count = 4 := by
  decide

/-- C8 amended: construction never fails; for any (even negative) `cellSize`
it produces a map whose dimensions are the ceiling divisions of the world size
and whose buckets are all empty. -/
theorem create_performs_no_validation (cellSize width height : Int) (u : Bool)
    (_h : cellSize < 0) :
    (SpatialMap.create cellSize width height u).cellSize = cellSize ∧
    (SpatialMap.create cellSize width height u).width = jsCeilDiv width cellSize ∧
    (SpatialMap.create cellSize width height u).height = jsCeilDiv height cellSize ∧
    ∀ b : Int, (SpatialMap.create cellSize width height u).grid b = [] := by
  exact ⟨rfl, rfl, rfl, fun _ => rfl⟩

/-- Witness for the C8 amended theorem at `cellSize = -5`. -/
theorem create_performs_no_validation_witness :
    (-5 : Int) < 0 ∧ (SpatialMap.create (-5) 10 10 false).cellSize = -5 :=
  ⟨by decide, (create_performs_no_validation (-5) 10 10 false (by decide)).1⟩

/-- C5 failing input: with bulk tracking enabled and item `0` inserted
(tracked list `[0]`), removing the never-inserted item `1` is not a no-op:
`list.splice(list.indexOf(object))` runs with `indexOf = -1`, and `splice(-1)`
deletes the last element of the tracked list. -/
theorem remove_never_inserted_truncates_tracked :
    (insert (baseStU ⟨5, 5, 6, 6⟩) 0).map.list = some [0] ∧
    ((insert (baseStU ⟨5, 5, 6, 6⟩) 0).objs 1).spatial = none ∧
    (remove (insert (baseStU ⟨5, 5, 6, 6⟩) 0) 1 false).map.list = some [] := by
  decide

/-- C9 failing input: with tracked items `[0, 1, 2]`, removing item `1` drops
it from its bucket correctly, but `list.splice(list.indexOf(object))` — missing
the delete-count argument — truncates the tracked list from index 1 to the
end, losing item `2` as well. -/
theorem remove_tracked_drops_tail :
    (insert (insert (insert (baseStU ⟨5, 5, 6, 6⟩) 0) 1) 2).map.list = some [0, 1, 2] ∧
    (remove (insert (insert (insert (baseStU ⟨5, 5, 6, 6⟩) 0) 1) 2) 1 false).map.grid 0 = [0, 2] ∧
    (remove (insert (insert (insert (baseStU ⟨5, 5, 6, 6⟩) 0) 1) 2) 1 false).map.list = some [0] := by
  decide

/-- C4 counterexample: after the public operation `remove`, the handle of the
removed item lists no buckets while its cached cell range (which `remove` does
not clear) still denotes bucket `0`; the buckets listed in the handle are
therefore not those of the cached range. -/
theorem handle_after_remove_stale_range :
    ((remove (insert (baseSt ⟨5, 5, 6, 6⟩) 0) 0 false).objs 0).spatial =
      some ⟨[], some 0, some 0, some 0, some 0⟩ ∧
    bucketsOfRange (remove (insert (baseSt ⟨5, 5, 6, 6⟩) 0) 0 false).map
      ⟨[], some 0, some 0, some 0, some 0⟩ = [0] := by
  decide

/-! Deduplication of callback traversals. -/

lemma qcbGo_cons (stamp : Int) (cb : Nat → Bool) (i : Nat) (rest : List Nat) (objs : Nat → Obj) :
    qcbGo stamp cb (i :: rest) objs =
      if (objs i).checked = some stamp then qcbGo stamp cb rest objs
      else if cb i then (objs, [i], true)
      else
        let r := qcbGo stamp cb rest (updObj objs i { objs i with checked := some stamp })
        (r.1, i :: r.2.1, r.2.2) := rfl

/-- Every object the traversal passes to the callback is distinct, and none of
them carried the current stamp on entry: an object is visited only when its
stamp differs, and it is stamped (or the traversal stops) immediately after. -/
lemma qcbGo_visited_spec (stamp : Int) (cb : Nat → Bool) :
    ∀ (l : List Nat) (objs : Nat → Obj),
      ((qcbGo stamp cb l objs).2.1).Nodup ∧
      ∀ x ∈ (qcbGo stamp cb l objs).2.1, (objs x).checked ≠ some stamp := by
  intro l
  induction l with
  | nil =>
      intro objs
      constructor
      · simp [qcbGo]
      · intro x hx
        simp [qcbGo] at hx
  | cons i rest ih =>
      intro objs
      rw [qcbGo_cons]
      by_cases hc : (objs i).checked = some stamp
      · rw [if_pos hc]
        exact ih objs
      · rw [if_neg hc]
        by_cases hb : cb i = true
        · rw [if_pos hb]
          constructor
          · simp
          · intro x hx
            simp at hx
            subst hx
            exact hc
        · rw [if_neg hb]
          obtain ⟨hnd, hall⟩ := ih (updObj objs i { objs i with checked := some stamp })
          constructor
          · refine List.nodup_cons.mpr ⟨?_, hnd⟩
            intro hmem
            exact hall _ hmem (by simp)
          · intro x hx
            rcases List.mem_cons.mp hx with rfl | hx'
            · exact hc
            · have hx'' := hall _ hx'
              by_cases hxi : x = i
              · subst hxi
                exact hc
              · intro hcon
                exact hx'' (by rwa [updObj_ne _ _ _ hxi])

/-- C2: a single `queryCallback` call invokes the callback at most once per
distinct item — the list of items passed to the callback has no duplicates —
even when the query's coverage spans several buckets containing the item. -/
theorem queryCallback_visits_nodup (st : St) (a : AABB) (cb : Nat → Bool) :
    ((queryCallback st a cb).2.1).Nodup := by
  unfold queryCallback
  exact (qcbGo_visited_spec _ _ _ _).1

/-- C10: `queryCallbackArticle` never passes the article itself to the
callback — the article is stamped with the fresh generation before the
traversal begins, so every occurrence of it in its own buckets is skipped. -/
theorem queryCallbackArticle_skips_self (st : St) (id : Nat) (cb : Nat → Bool) (sp : Spatial)
    (_h : (st.objs id).spatial = some sp) :
    id ∉ (queryCallbackArticle st id cb).2.1 := by
  unfold queryCallbackArticle
  intro hmem
  have hspec := (qcbGo_visited_spec _ _ _ _).2 _ hmem
  exact hspec (by simp)

/-- Witness for C10: the spec's scenario item, freshly inserted, is not
visited by its own `queryCallbackArticle` traversal. -/
theorem queryCallbackArticle_skips_self_witness :
    ((insert (baseSt ⟨5, 5, 15, 15⟩) 0).objs 0).spatial =
      some ⟨[0, 1, 10, 11], some 0, some 0, some 1, some 1⟩ ∧
    0 ∉ (queryCallbackArticle (insert (baseSt ⟨5, 5, 15, 15⟩) 0) 0 (fun _ => false)).2.1 :=
  ⟨by decide,
   queryCallbackArticle_skips_self (insert (baseSt ⟨5, 5, 15, 15⟩) 0) 0 (fun _ => false)
     ⟨[0, 1, 10, 11], some 0, some 0, some 1, some 1⟩ (by decide)⟩

/-! Preservation of the map's dimensions by the operations, and membership in
fold results, used to relate an insertion to a subsequent query. -/

@[simp]
lemma setCached_map (st : St) (id : Nat) (c : Coverage) : (setCached st id c).map = st.map := rfl

@[simp]
lemma pushCell_map_cellSize (st : St) (id : Nat) (b : Int) :
    (pushCell st id b).map.cellSize = st.map.cellSize := rfl

@[simp]
lemma pushCell_map_width (st : St) (id : Nat) (b : Int) :
    (pushCell st id b).map.width = st.map.width := rfl

@[simp]
lemma pushCell_map_height (st : St) (id : Nat) (b : Int) :
    (pushCell st id b).map.height = st.map.height := rfl

lemma pushCell_grid (st : St) (id : Nat) (b b' : Int) :
    (pushCell st id b).map.grid b' = if b' = b then st.map.grid b ++ [id] else st.map.grid b' := rfl

lemma ensureHandle_dims (st : St) (id : Nat) :
    (ensureHandle st id).map.cellSize = st.map.cellSize ∧
    (ensureHandle st id).map.width = st.map.width ∧
    (ensureHandle st id).map.height = st.map.height ∧
    (ensureHandle st id).map.grid = st.map.grid := by
  unfold ensureHandle
  cases h : (st.objs id).spatial
  · cases hl : st.map.list <;> simp
  · simp

lemma ensureHandle_objs_none (st : St) (id : Nat) (h : (st.objs id).spatial = none) :
    (ensureHandle st id).objs id = { st.objs id with spatial := some freshSpatial } := by
  unfold ensureHandle
  rw [h]
  cases hl : st.map.list <;> simp

lemma coverage_congr {m m' : SpatialMap} (a : AABB)
    (h1 : m.cellSize = m'.cellSize) (h2 : m.width = m'.width) (h3 : m.height = m'.height) :
    coverage m a = coverage m' a := by
  unfold coverage
  rw [h1, h2, h3]

lemma rangeCells_congr {m m' : SpatialMap} (c : Coverage) (h2 : m.width = m'.width) :
    rangeCells m c = rangeCells m' c := by
  unfold rangeCells
  rw [h2]

lemma foldl_pushCell_dims (id : Nat) :
    ∀ (L : List Int) (s : St),
      ((L.foldl (fun s b => pushCell s id b) s)).map.cellSize = s.map.cellSize ∧
      ((L.foldl (fun s b => pushCell s id b) s)).map.width = s.map.width ∧
      ((L.foldl (fun s b => pushCell s id b) s)).map.height = s.map.height := by
  intro L
  induction L with
  | nil => intro s; exact ⟨rfl, rfl, rfl⟩
  | cons c rest ih =>
      intro s
      rw [List.foldl_cons]
      obtain ⟨h1, h2, h3⟩ := ih (pushCell s id c)
      exact ⟨h1.trans rfl, h2.trans rfl, h3.trans rfl⟩

lemma foldl_pushCell_mem_grid (id : Nat) :
    ∀ (L : List Int) (s : St) (b : Int),
      (b ∈ L ∨ id ∈ s.map.grid b) →
      id ∈ ((L.foldl (fun s b => pushCell s id b) s).map.grid b) := by
  intro L
  induction L with
  | nil =>
      intro s b h
      rcases h with h | h
      · simp at h
      · exact h
  | cons c rest ih =>
      intro s b h
      rw [List.foldl_cons]
      apply ih
      rcases h with h | h
      · rcases List.mem_cons.mp h with rfl | h'
        · right
          rw [pushCell_grid, if_pos rfl]
          exact List.mem_append_right _ (by simp)
        · left; exact h'
      · right
        rw [pushCell_grid]
        split
        · next he => rw [he] at h; exact List.mem_append_left _ h
        · exact h

lemma query_foldl_mem (g : Int → List Nat) (id : Nat) :
    ∀ (L : List Int) (acc : List Nat),
      (id ∈ acc ∨ ∃ b ∈ L, id ∈ g b) →
      id ∈ L.foldl (fun res b => if (g b).length ≠ 0 then res ++ g b else res) acc := by
  intro L
  induction L with
  | nil =>
      intro acc h
      rcases h with h | ⟨b, hb, _⟩
      · exact h
      · simp at hb
  | cons c rest ih =>
      intro acc h
      rw [List.foldl_cons]
      apply ih
      rcases h with h | ⟨b, hb, hg⟩
      · left
        split
        · exact List.mem_append_left _ h
        · exact h
      · rcases List.mem_cons.mp hb with rfl | hb'
        · left
          have hne : (g b).length ≠ 0 := by
            intro h0
            rw [List.length_eq_zero] at h0
            rw [h0] at hg
            simp at hg
          rw [if_pos hne]
          exact List.mem_append_right _ hg
        · right
          exact ⟨b, hb', hg⟩

lemma mem_query_of_mem_bucket (st : St) (a : AABB) (id : Nat) (b : Int)
    (hb : b ∈ rangeCells st.map (coverage st.map a)) (hg : id ∈ st.map.grid b) :
    id ∈ query st a := by
  unfold query
  exact query_foldl_mem st.map.grid id _ [] (Or.inr ⟨b, hb, hg⟩)

/-- C1 amended: immediately after a *first-time* `insert` of an item whose
clamped coverage range is non-empty, `query` with the item's AABB contains the
item at least once.  (The original unconditional claim fails: an AABB whose
clamped coverage is empty is placed in no bucket, and re-insertion after a
`remove` is skipped because of the retained cached range.) -/
theorem insert_fresh_nonempty_query_contains (st : St) (id : Nat)
    (h0 : (st.objs id).spatial = none)
    (hne : rangeCells st.map (coverage st.map ((st.objs id).aabb)) ≠ []) :
    id ∈ query (insert st id) ((st.objs id).aabb) := by
  obtain ⟨hc1, hw1, hh1, hg1⟩ := ensureHandle_dims st id
  have hobjs1 : (ensureHandle st id).objs id = { st.objs id with spatial := some freshSpatial } :=
    ensureHandle_objs_none st id h0
  have hsp1 : ((ensureHandle st id).objs id).spatial = some freshSpatial := by rw [hobjs1]
  have haabb1 : ((ensureHandle st id).objs id).aabb = (st.objs id).aabb := by rw [hobjs1]
  have hcov : coverage (ensureHandle st id).map (((ensureHandle st id).objs id).aabb)
      = coverage st.map ((st.objs id).aabb) := by
    rw [haabb1]
    exact coverage_congr _ hc1 hw1 hh1
  have hins : insert st id =
      setCached ((rangeCells (ensureHandle st id).map
          (coverage (ensureHandle st id).map (((ensureHandle st id).objs id).aabb))).foldl
        (fun s b => pushCell s id b) (ensureHandle st id)) id
        (coverage (ensureHandle st id).map (((ensureHandle st id).objs id).aabb)) := by
    unfold insert
    show (match ((ensureHandle st id).objs id).spatial with
          | none => ensureHandle st id
          | some sp => insertBody (ensureHandle st id) id sp
              (coverage (ensureHandle st id).map (((ensureHandle st id).objs id).aabb))) = _
    rw [hsp1]
    show insertBody (ensureHandle st id) id freshSpatial
        (coverage (ensureHandle st id).map (((ensureHandle st id).objs id).aabb)) = _
    unfold insertBody
    rw [if_neg (by simp [freshSpatial])]
    rfl
  have hne1 : rangeCells (ensureHandle st id).map
      (coverage (ensureHandle st id).map (((ensureHandle st id).objs id).aabb)) ≠ [] := by
    rw [hcov, rangeCells_congr _ hw1]
    exact hne
  obtain ⟨b0, hb0⟩ := List.exists_mem_of_ne_nil _ hne1
  obtain ⟨hc3, hw3, hh3⟩ := foldl_pushCell_dims id
    (rangeCells (ensureHandle st id).map
      (coverage (ensureHandle st id).map (((ensureHandle st id).objs id).aabb)))
    (ensureHandle st id)
  have hmem := foldl_pushCell_mem_grid id
    (rangeCells (ensureHandle st id).map
      (coverage (ensureHandle st id).map (((ensureHandle st id).objs id).aabb)))
    (ensureHandle st id) b0 (Or.inl hb0)
  rw [hins]
  apply mem_query_of_mem_bucket _ _ id b0
  · rw [setCached_map]
    rw [coverage_congr ((st.objs id).aabb) hc3 hw3 hh3, ← haabb1, rangeCells_congr _ hw3]
    exact hb0
  · rw [setCached_map]
    exact hmem

/-- Witness for the C1 amended theorem: the spec's scenario item with AABB
`(5,5,15,15)`, freshly inserted into the `10 × 10` grid, is found by a query
with the same AABB. -/
theorem insert_fresh_nonempty_query_contains_witness :
    ((baseSt ⟨5, 5, 15, 15⟩).objs 0).spatial = none ∧
    rangeCells (baseSt ⟨5, 5, 15, 15⟩).map
      (coverage (baseSt ⟨5, 5, 15, 15⟩).map (((baseSt ⟨5, 5, 15, 15⟩).objs 0).aabb)) ≠ [] ∧
    0 ∈ query (insert (baseSt ⟨5, 5, 15, 15⟩) 0) (((baseSt ⟨5, 5, 15, 15⟩).objs 0).aabb) :=
  ⟨rfl, by decide,
   insert_fresh_nonempty_query_contains (baseSt ⟨5, 5, 15, 15⟩) 0 rfl (by decide)⟩

/-! Arithmetic of the clamped coverage computation. -/

lemma coverage_xStart (m : SpatialMap) (a : AABB) :
    (coverage m a).xStart =
      if Int.fdiv a.x1 m.cellSize < 0 then 0 else Int.fdiv a.x1 m.cellSize := rfl

lemma coverage_yStart (m : SpatialMap) (a : AABB) :
    (coverage m a).yStart =
      if Int.fdiv a.y1 m.cellSize < 0 then 0 else Int.fdiv a.y1 m.cellSize := rfl

lemma coverage_xEnd (m : SpatialMap) (a : AABB) :
    (coverage m a).xEnd =
      if m.width ≤ Int.fdiv (a.x2 - 1) m.cellSize then m.width - 1
      else Int.fdiv (a.x2 - 1) m.cellSize := rfl

lemma coverage_yEnd (m : SpatialMap) (a : AABB) :
    (coverage m a).yEnd =
      if m.height ≤ Int.fdiv (a.y2 - 1) m.cellSize then m.height - 1
      else Int.fdiv (a.y2 - 1) m.cellSize := rfl

lemma clamp_bounds {s e w : Int} (hw : 1 ≤ w) (hse : s ≤ e) (he0 : 0 ≤ e) (hsw : s < w) :
    0 ≤ (if s < 0 then 0 else s) ∧
    (if s < 0 then 0 else s) ≤ (if w ≤ e then w - 1 else e) ∧
    (if w ≤ e then w - 1 else e) ≤ w - 1 := by
  refine ⟨?_, ?_, ?_⟩
  · split <;> omega
  · split <;> split <;> omega
  · split <;> omega

/-- C6 amended: an AABB with at least unit extent on both axes that overlaps
the grid's area — including AABBs partially outside the world — is clamped to
a non-empty, fully in-bounds cell range.  (The original claim also covered
AABBs *fully* outside the world, for which the asymmetric clamping instead
yields an empty range and the item is placed in no bucket.) -/
theorem coverage_overlap_clamped_nonempty (m : SpatialMap) (a : AABB)
    (hcs : 0 < m.cellSize) (hw : 1 ≤ m.width) (hh : 1 ≤ m.height)
    (hxlen : a.x1 ≤ a.x2 - 1) (hylen : a.y1 ≤ a.y2 - 1)
    (hx2 : 1 ≤ a.x2) (hx1 : a.x1 < m.width * m.cellSize)
    (hy2 : 1 ≤ a.y2) (hy1 : a.y1 < m.height * m.cellSize) :
    0 ≤ (coverage m a).xStart ∧ (coverage m a).xStart ≤ (coverage m a).xEnd ∧
    (coverage m a).xEnd ≤ m.width - 1 ∧
    0 ≤ (coverage m a).yStart ∧ (coverage m a).yStart ≤ (coverage m a).yEnd ∧
    (coverage m a).yEnd ≤ m.height - 1 ∧
    rangeCells m (coverage m a) ≠ [] := by
  have hcs' : (0 : Int) ≤ m.cellSize := le_of_lt hcs
  have hfx1 : Int.fdiv a.x1 m.cellSize = a.x1 / m.cellSize := Int.fdiv_eq_ediv _ hcs'
  have hfx2 : Int.fdiv (a.x2 - 1) m.cellSize = (a.x2 - 1) / m.cellSize := Int.fdiv_eq_ediv _ hcs'
  have hfy1 : Int.fdiv a.y1 m.cellSize = a.y1 / m.cellSize := Int.fdiv_eq_ediv _ hcs'
  have hfy2 : Int.fdiv (a.y2 - 1) m.cellSize = (a.y2 - 1) / m.cellSize := Int.fdiv_eq_ediv _ hcs'
  have hxb := clamp_bounds (s := a.x1 / m.cellSize) (e := (a.x2 - 1) / m.cellSize) hw
    (Int.ediv_le_ediv hcs hxlen) (Int.ediv_nonneg (by omega) hcs')
    ((Int.ediv_lt_iff_lt_mul hcs).mpr hx1)
  have hyb := clamp_bounds (s := a.y1 / m.cellSize) (e := (a.y2 - 1) / m.cellSize) hh
    (Int.ediv_le_ediv hcs hylen) (Int.ediv_nonneg (by omega) hcs')
    ((Int.ediv_lt_iff_lt_mul hcs).mpr hy1)
  have hcx1 : 0 ≤ (coverage m a).xStart := by rw [coverage_xStart, hfx1]; exact hxb.1
  have hcx2 : (coverage m a).xStart ≤ (coverage m a).xEnd := by
    rw [coverage_xStart, coverage_xEnd, hfx1, hfx2]; exact hxb.2.1
  have hcx3 : (coverage m a).xEnd ≤ m.width - 1 := by
    rw [coverage_xEnd, hfx2]; exact hxb.2.2
  have hcy1 : 0 ≤ (coverage m a).yStart := by rw [coverage_yStart, hfy1]; exact hyb.1
  have hcy2 : (coverage m a).yStart ≤ (coverage m a).yEnd := by
    rw [coverage_yStart, coverage_yEnd, hfy1, hfy2]; exact hyb.2.1
  have hcy3 : (coverage m a).yEnd ≤ m.height - 1 := by
    rw [coverage_yEnd, hfy2]; exact hyb.2.2
  refine ⟨hcx1, hcx2, hcx3, hcy1, hcy2, hcy3, ?_⟩
  apply List.ne_nil_of_mem (a := (coverage m a).yStart * m.width + (coverage m a).xStart)
  unfold rangeCells
  apply List.mem_flatMap.mpr
  refine ⟨(coverage m a).yStart, mem_intRange.mpr ⟨le_refl _, hcy2⟩, ?_⟩
  exact List.mem_map.mpr ⟨(coverage m a).xStart, mem_intRange.mpr ⟨le_refl _, hcx2⟩, rfl⟩

/-- Witness for the C6 amended theorem: the spec's scenario AABB
`(-5,-5,5,5)`, partially outside the `100 × 100` world, clamps to a non-empty
range (namely the single cell `(0,0)`). -/
theorem coverage_overlap_clamped_nonempty_witness :
    (0 : Int) < m0.cellSize ∧ (1 : Int) ≤ m0.width ∧ (1 : Int) ≤ m0.height ∧
    (-5 : Int) ≤ 5 - 1 ∧ (-5 : Int) ≤ 5 - 1 ∧
    (1 : Int) ≤ 5 ∧ (-5 : Int) < m0.width * m0.cellSize ∧
    (1 : Int) ≤ 5 ∧ (-5 : Int) < m0.height * m0.cellSize ∧
    rangeCells m0 (coverage m0 ⟨-5, -5, 5, 5⟩) ≠ [] :=
  ⟨by decide, by decide, by decide, by decide, by decide, by decide, by decide, by decide, by decide,
   (coverage_overlap_clamped_nonempty m0 ⟨-5, -5, 5, 5⟩ (by decide) (by decide) (by decide)
     (by decide) (by decide) (by decide) (by decide) (by decide) (by decide)).2.2.2.2.2.2⟩

lemma fdiv_pred_eq {cs x : Int} (hcs : 0 < cs) (hm : x % cs ≠ 0) :
    Int.fdiv (x - 1) cs = Int.fdiv x cs := by
  rw [Int.fdiv_eq_ediv _ (le_of_lt hcs), Int.fdiv_eq_ediv _ (le_of_lt hcs)]
  have h1 : cs * (x / cs) + x % cs = x := Int.ediv_add_emod x cs
  have hr0 : 0 ≤ x % cs := Int.emod_nonneg x (ne_of_gt hcs)
  have hrlt : x % cs < cs := Int.emod_lt_of_pos x hcs
  exact ((Int.ediv_emod_unique (a := x - 1) (b := cs) (r := x % cs - 1) (q := x / cs) hcs).mpr
    ⟨by linarith, by omega, by omega⟩).1

/-- C7 amended: a degenerate (zero-area) AABB maps to exactly one cell
(`xStart = xEnd` and `yStart = yEnd`) provided it lies within the grid's area
and not exactly on a cell boundary.  (On a boundary — `x` a multiple of
`cellSize` — the `maxX - 1` end computation lands in the previous cell and the
range is empty, as the counterexample shows.) -/
theorem coverage_degenerate_interior_single_cell (m : SpatialMap) (x y : Int)
    (hcs : 0 < m.cellSize)
    (hx0 : 0 ≤ x) (hxw : x < m.width * m.cellSize) (hxm : x % m.cellSize ≠ 0)
    (hy0 : 0 ≤ y) (hyh : y < m.height * m.cellSize) (hym : y % m.cellSize ≠ 0) :
    (coverage m ⟨x, y, x, y⟩).xStart = (coverage m ⟨x, y, x, y⟩).xEnd ∧
    (coverage m ⟨x, y, x, y⟩).yStart = (coverage m ⟨x, y, x, y⟩).yEnd := by
  have hcs' : (0 : Int) ≤ m.cellSize := le_of_lt hcs
  have hgx : Int.fdiv (x - 1) m.cellSize = Int.fdiv x m.cellSize := fdiv_pred_eq hcs hxm
  have hgy : Int.fdiv (y - 1) m.cellSize = Int.fdiv y m.cellSize := fdiv_pred_eq hcs hym
  have hfx : Int.fdiv x m.cellSize = x / m.cellSize := Int.fdiv_eq_ediv _ hcs'
  have hfy : Int.fdiv y m.cellSize = y / m.cellSize := Int.fdiv_eq_ediv _ hcs'
  have hsx0 : 0 ≤ x / m.cellSize := Int.ediv_nonneg hx0 hcs'
  have hsxw : x / m.cellSize < m.width := (Int.ediv_lt_iff_lt_mul hcs).mpr hxw
  have hsy0 : 0 ≤ y / m.cellSize := Int.ediv_nonneg hy0 hcs'
  have hsyh : y / m.cellSize < m.height := (Int.ediv_lt_iff_lt_mul hcs).mpr hyh
  constructor
  · rw [coverage_xStart, coverage_xEnd]
    show (if Int.fdiv x m.cellSize < 0 then 0 else Int.fdiv x m.cellSize) =
      (if m.width ≤ Int.fdiv (x - 1) m.cellSize then m.width - 1 else Int.fdiv (x - 1) m.cellSize)
    rw [hgx, hfx, if_neg (not_lt.mpr hsx0), if_neg (not_le.mpr hsxw)]
  · rw [coverage_yStart, coverage_yEnd]
    show (if Int.fdiv y m.cellSize < 0 then 0 else Int.fdiv y m.cellSize) =
      (if m.height ≤ Int.fdiv (y - 1) m.cellSize then m.height - 1 else Int.fdiv (y - 1) m.cellSize)
    rw [hgy, hfy, if_neg (not_lt.mpr hsy0), if_neg (not_le.mpr hsyh)]

/-- Witness for the C7 amended theorem: the degenerate AABB `(5,5,5,5)` sits
strictly inside cell `(0,0)` and its coverage is that single cell. -/
theorem coverage_degenerate_interior_single_cell_witness :
    ((5 : Int) % m0.cellSize ≠ 0) ∧
    (coverage m0 ⟨5, 5, 5, 5⟩).xStart = (coverage m0 ⟨5, 5, 5, 5⟩).xEnd :=
  ⟨by decide,
   (coverage_degenerate_interior_single_cell m0 5 5 (by decide) (by decide) (by decide)
     (by decide) (by decide) (by decide) (by decide)).1⟩

/-! Structural lemmas for the bucket-membership invariant (claim C4): no
duplicates in a coverage range, counting through the erase loop of `remove`
and the push loop of `insert`, and the effect of each operation on the object
store. -/

lemma intRange_nodup (a b : Int) : (intRange a b).Nodup := by
  unfold intRange
  refine List.Nodup.map ?_ (List.nodup_range _)
  intro i j h
  have h' : a + (i : Int) = a + (j : Int) := h
  omega

lemma intRange_pairwise_lt (a b : Int) : (intRange a b).Pairwise (· < ·) := by
  unfold intRange
  refine List.Pairwise.map _ ?_ (List.pairwise_lt_range _)
  intro i j hij
  show a + (i : Int) < a + (j : Int)
  omega

lemma rangeCells_nodup (m : SpatialMap) (c : Coverage)
    (hxs : 0 ≤ c.xStart) (hxe : c.xEnd ≤ m.width - 1) :
    (rangeCells m c).Nodup := by
  unfold rangeCells
  rw [List.nodup_flatMap]
  constructor
  · intro y hy
    refine List.Nodup.map ?_ (intRange_nodup _ _)
    intro x1 x2 h
    have h' : y * m.width + x1 = y * m.width + x2 := h
    omega
  · refine (intRange_pairwise_lt _ _).imp ?_
    intro y1 y2 hlt
    intro z hz1 hz2
    obtain ⟨x1, hx1, he1⟩ := List.mem_map.mp hz1
    obtain ⟨x2, hx2, he2⟩ := List.mem_map.mp hz2
    obtain ⟨hx1a, hx1b⟩ := mem_intRange.mp hx1
    obtain ⟨hx2a, hx2b⟩ := mem_intRange.mp hx2
    have e1 : y1 * m.width + x1 = z := he1
    have e2 : y2 * m.width + x2 = z := he2
    have h12 : y1 * m.width + x1 = y2 * m.width + x2 := by rw [e1, e2]
    have hd : 1 ≤ y2 - y1 := by omega
    have hkey : 1 * m.width ≤ (y2 - y1) * m.width :=
      mul_le_mul_of_nonneg_right hd (by omega)
    have hsub : (y2 - y1) * m.width = x1 - x2 := by
      rw [sub_mul]
      linarith
    rw [one_mul] at hkey
    linarith

lemma foldl_erase_count_self (id : Nat) :
    ∀ (M : List Int) (g : Int → List Nat) (b : Int),
      ((M.foldl (fun g c => fun b' => if b' = c then (g c).erase id else g b') g) b).count id
        = ((g b).count id) - M.count b := by
  intro M
  induction M with
  | nil => intro g b; simp
  | cons c rest ih =>
      intro g b
      rw [List.foldl_cons, ih]
      show ((if b = c then (g c).erase id else g b).count id) - rest.count b
        = (g b).count id - List.count b (c :: rest)
      rw [List.count_cons]
      by_cases h : b = c
      · subst h
        rw [if_pos rfl, List.count_erase_self]
        simp
        omega
      · rw [if_neg h]
        have hbeq : (c == b) = false := by
          simp only [beq_eq_false_iff_ne, ne_eq]
          exact fun hc => h hc.symm
        rw [hbeq]
        simp

lemma foldl_erase_count_ne (id j : Nat) (hji : j ≠ id) :
    ∀ (M : List Int) (g : Int → List Nat) (b : Int),
      ((M.foldl (fun g c => fun b' => if b' = c then (g c).erase id else g b') g) b).count j
        = (g b).count j := by
  intro M
  induction M with
  | nil => intro g b; rfl
  | cons c rest ih =>
      intro g b
      rw [List.foldl_cons, ih]
      show ((if b = c then (g c).erase id else g b).count j) = (g b).count j
      by_cases h : b = c
      · subst h
        rw [if_pos rfl]
        exact List.count_erase_of_ne hji _
      · rw [if_neg h]

lemma remove_spec_some (st : St) (id : Nat) (r : Bool) (sp : Spatial)
    (h : (st.objs id).spatial = some sp) :
    (remove st id r).map.grid =
      (sp.maps.reverse.foldl (fun g b => fun b' => if b' = b then (g b).erase id else g b')
        st.map.grid) ∧
    (remove st id r).objs id = { st.objs id with spatial := some ({ sp with maps := [] }) } ∧
    (∀ j, j ≠ id → (remove st id r).objs j = st.objs j) ∧
    (remove st id r).map.cellSize = st.map.cellSize ∧
    (remove st id r).map.width = st.map.width ∧
    (remove st id r).map.height = st.map.height := by
  unfold remove
  simp only [h]
  rcases hl : st.map.list with _ | l <;> cases r <;>
    exact ⟨rfl, by simp, fun j hj => updObj_ne _ _ _ hj, rfl, rfl, rfl⟩

lemma remove_spec_none (st : St) (id : Nat) (r : Bool)
    (h : (st.objs id).spatial = none) :
    (remove st id r).map.grid = st.map.grid ∧
    (remove st id r).objs = st.objs ∧
    (remove st id r).map.cellSize = st.map.cellSize ∧
    (remove st id r).map.width = st.map.width ∧
    (remove st id r).map.height = st.map.height := by
  unfold remove
  simp only [h]
  rcases hl : st.map.list with _ | l <;> cases r <;> exact ⟨rfl, rfl, rfl, rfl, rfl⟩

lemma foldl_pushCell_objs_ne (id : Nat) {j : Nat} (h : j ≠ id) :
    ∀ (L : List Int) (s : St), ((L.foldl (fun s b => pushCell s id b) s).objs j) = s.objs j := by
  intro L
  induction L with
  | nil => intro s; rfl
  | cons c rest ih =>
      intro s
      rw [List.foldl_cons, ih]
      exact updObj_ne _ _ _ h

lemma foldl_pushCell_objs_self (id : Nat) :
    ∀ (L : List Int) (s : St) (sp : Spatial), (s.objs id).spatial = some sp →
      ((L.foldl (fun s b => pushCell s id b) s).objs id) =
        { s.objs id with spatial := some ({ sp with maps := sp.maps ++ L }) } := by
  intro L
  induction L with
  | nil =>
      intro s sp h
      rw [List.foldl_nil]
      have h1 : ({ sp with maps := sp.maps ++ [] } : Spatial) = sp := by
        cases sp
        simp
      rw [h1, ← h]
  | cons c rest ih =>
      intro s sp h
      rw [List.foldl_cons]
      have hps : (pushCell s id c).objs id =
          { s.objs id with spatial := some ({ sp with maps := sp.maps ++ [c] }) } := by
        show updObj s.objs id _ id = _
        rw [updObj_self, h]
        rfl
      have hps' : ((pushCell s id c).objs id).spatial
          = some ({ sp with maps := sp.maps ++ [c] }) := by
        rw [hps]
      rw [ih (pushCell s id c) _ hps', hps]
      cases hobj : s.objs id
      simp [List.append_assoc]

lemma foldl_pushCell_grid_count (id : Nat) :
    ∀ (L : List Int) (s : St) (b : Int),
      ((L.foldl (fun s b => pushCell s id b) s).map.grid b) =
        s.map.grid b ++ List.replicate (L.count b) id := by
  intro L
  induction L with
  | nil => intro s b; simp
  | cons c rest ih =>
      intro s b
      rw [List.foldl_cons, ih, pushCell_grid, List.count_cons]
      by_cases h : b = c
      · subst h
        rw [if_pos rfl]
        have hbeq : (b == b) = true := by simp
        rw [hbeq]
        simp
        exact (List.replicate_succ _ _).symm
      · rw [if_neg h]
        have hbeq : (c == b) = false := by
          simp only [beq_eq_false_iff_ne, ne_eq]
          exact fun hc => h hc.symm
        rw [hbeq]
        simp

lemma ensureHandle_objs_ne (st : St) (id : Nat) {j : Nat} (h : j ≠ id) :
    (ensureHandle st id).objs j = st.objs j := by
  unfold ensureHandle
  cases hsp : (st.objs id).spatial
  · cases hl : st.map.list <;> simp [updObj_ne _ _ _ h]
  · rfl

lemma ensureHandle_some (st : St) (id : Nat) (sp : Spatial)
    (h : (st.objs id).spatial = some sp) :
    ensureHandle st id = st := by
  unfold ensureHandle
  rw [h]

lemma setCached_objs_ne (st : St) (id : Nat) (c : Coverage) {j : Nat} (h : j ≠ id) :
    (setCached st id c).objs j = st.objs j :=
  updObj_ne _ _ _ h

lemma setCached_objs_self (st : St) (id : Nat) (c : Coverage) (sp : Spatial)
    (h : (st.objs id).spatial = some sp) :
    (setCached st id c).objs id =
      { st.objs id with spatial := some ({ sp with
          xStart := some c.xStart, yStart := some c.yStart,
          xEnd := some c.xEnd, yEnd := some c.yEnd }) } := by
  unfold setCached
  simp only [h, updObj_self]
  rfl

lemma bucketsOfRange_congr {m m' : SpatialMap} (sp : Spatial) (h : m.width = m'.width) :
    bucketsOfRange m sp = bucketsOfRange m' sp := by
  unfold bucketsOfRange
  cases sp.xStart <;> cases sp.yStart <;> cases sp.xEnd <;> cases sp.yEnd <;>
    first
      | rfl
      | exact rangeCells_congr _ h

lemma remove_clears_id (st : St) (id : Nat) (r : Bool) (sp : Spatial) (h : StInv st)
    (hsp : (st.objs id).spatial = some sp) :
    ∀ b, ((remove st id r).map.grid b).count id = 0 := by
  obtain ⟨hg, _, _, _, _, _⟩ := remove_spec_some st id r sp hsp
  obtain ⟨hcnt, hnd, _⟩ := (h id).2 sp hsp
  intro b
  rw [hg, foldl_erase_count_self, List.count_reverse, hcnt b]
  by_cases hb : b ∈ sp.maps
  · rw [if_pos hb, List.count_eq_one_of_mem hnd hb]
  · rw [if_neg hb, List.count_eq_zero.mpr hb]

lemma remove_preserves_inv (st : St) (id : Nat) (r : Bool) (h : StInv st) :
    StInv (remove st id r) := by
  intro j
  by_cases hj : j = id
  · subst hj
    rcases hsp : (st.objs j).spatial with _ | sp
    · obtain ⟨hg, ho, _, _, _⟩ := remove_spec_none st j r hsp
      constructor
      · intro _ b
        rw [hg]
        exact (h j).1 hsp b
      · intro sp' hsp'
        rw [ho, hsp] at hsp'
        cases hsp'
    · obtain ⟨hg, ho, hone, hcs, hw, hh⟩ := remove_spec_some st j r sp hsp
      constructor
      · intro h0
        rw [ho] at h0
        cases h0
      · intro sp' hsp'
        rw [ho] at hsp'
        have hsp'' : sp' = { sp with maps := [] } := by
          have h2 : some ({ sp with maps := ([] : List Int) }) = some sp' := hsp'
          injection h2 with hh'
          exact hh'.symm
        subst hsp''
        refine ⟨?_, List.nodup_nil, Or.inl rfl⟩
        intro b
        have := remove_clears_id st j r sp h hsp b
        rw [this]
        simp
  · rcases hsp : (st.objs id).spatial with _ | sp
    · obtain ⟨hg, ho, hcs, hw, hh⟩ := remove_spec_none st id r hsp
      obtain ⟨hn, hs⟩ := h j
      constructor
      · intro h0 b
        rw [hg]
        apply hn ?_ b
        rw [← congrFun ho j]
        exact h0
      · intro sp' hsp'
        have hst : (st.objs j).spatial = some sp' := by
          rw [← congrFun ho j]
          exact hsp'
        obtain ⟨hcnt, hnd, hbr⟩ := hs sp' hst
        refine ⟨?_, hnd, ?_⟩
        · intro b
          rw [hg]
          exact hcnt b
        · rcases hbr with h1 | h1
          · exact Or.inl h1
          · right
            rw [h1]
            exact (bucketsOfRange_congr sp' hw).symm
    · obtain ⟨hg, ho, hone, hcs, hw, hh⟩ := remove_spec_some st id r sp hsp
      obtain ⟨hn, hs⟩ := h j
      constructor
      · intro h0 b
        rw [hg, foldl_erase_count_ne id j hj]
        apply hn ?_ b
        rw [← hone j hj]
        exact h0
      · intro sp' hsp'
        have hst : (st.objs j).spatial = some sp' := by
          rw [← hone j hj]
          exact hsp'
        obtain ⟨hcnt, hnd, hbr⟩ := hs sp' hst
        refine ⟨?_, hnd, ?_⟩
        · intro b
          rw [hg, foldl_erase_count_ne id j hj]
          exact hcnt b
        · rcases hbr with h1 | h1
          · exact Or.inl h1
          · right
            rw [h1]
            exact (bucketsOfRange_congr sp' hw).symm

lemma coverage_xStart_nonneg (m : SpatialMap) (a : AABB) : 0 ≤ (coverage m a).xStart := by
  rw [coverage_xStart]
  split
  · exact le_refl 0
  · next hh => exact not_lt.mp hh

lemma coverage_xEnd_le (m : SpatialMap) (a : AABB) : (coverage m a).xEnd ≤ m.width - 1 := by
  rw [coverage_xEnd]
  split
  · exact le_refl _
  · next hh => linarith [not_le.mp hh]

lemma foldl_pushCell_count_ne (id j : Nat) (hji : j ≠ id) (L : List Int) (s : St) (b : Int) :
    ((L.foldl (fun s b => pushCell s id b) s).map.grid b).count j = (s.map.grid b).count j := by
  rw [foldl_pushCell_grid_count, List.count_append, List.count_replicate]
  have hbeq : (id == j) = false := by
    simp only [beq_eq_false_iff_ne, ne_eq]
    exact fun hc => hji hc.symm
  rw [hbeq]
  simp

lemma foldl_pushCell_count_self (id : Nat) (L : List Int) (s : St) (b : Int)
    (h0 : (s.map.grid b).count id = 0) :
    ((L.foldl (fun s b => pushCell s id b) s).map.grid b).count id = L.count b := by
  rw [foldl_pushCell_grid_count, List.count_append, h0, List.count_replicate]
  simp

lemma ensureHandle_preserves_inv (st : St) (id : Nat) (h : StInv st) :
    StInv (ensureHandle st id) := by
  rcases hsp : (st.objs id).spatial with _ | sp
  · intro j
    obtain ⟨hcs, hw, hh, hg⟩ := ensureHandle_dims st id
    by_cases hj : j = id
    · rw [hj]
      constructor
      · intro h0
        rw [ensureHandle_objs_none st id hsp] at h0
        cases h0
      · intro sp' hsp'
        rw [ensureHandle_objs_none st id hsp] at hsp'
        have h2 : (some freshSpatial : Option Spatial) = some sp' := hsp'
        injection h2 with h2'
        subst h2'
        refine ⟨?_, List.nodup_nil, Or.inl rfl⟩
        intro b
        rw [hg]
        have h3 := (h id).1 hsp b
        rw [h3]
        simp [freshSpatial]
    · obtain ⟨hn, hs⟩ := h j
      constructor
      · intro h0 b
        rw [hg]
        apply hn ?_ b
        rw [← ensureHandle_objs_ne st id hj]
        exact h0
      · intro sp' hsp'
        have hst : (st.objs j).spatial = some sp' := by
          rw [← ensureHandle_objs_ne st id hj]
          exact hsp'
        obtain ⟨hcnt, hnd, hbr⟩ := hs sp' hst
        refine ⟨?_, hnd, ?_⟩
        · intro b
          rw [hg]
          exact hcnt b
        · rcases hbr with h1 | h1
          · exact Or.inl h1
          · right
            rw [h1]
            exact (bucketsOfRange_congr sp' hw).symm
  · rw [ensureHandle_some st id sp hsp]
    exact h

lemma push_phase_inv (st2 : St) (id : Nat) (spE : Spatial) (c : Coverage)
    (h2 : StInv st2) (hspE : (st2.objs id).spatial = some spE) (hE : spE.maps = [])
    (hzero : ∀ b, (st2.map.grid b).count id = 0)
    (hc0 : 0 ≤ c.xStart) (hc1 : c.xEnd ≤ st2.map.width - 1)
    (L : List Int) (hL : L = rangeCells st2.map c) :
    StInv (setCached (L.foldl (fun s b => pushCell s id b) st2) id c) := by
  have hLnd : L.Nodup := by
    rw [hL]
    exact rangeCells_nodup st2.map c hc0 hc1
  obtain ⟨hfcs, hfw, hfh⟩ := foldl_pushCell_dims id L st2
  have hfoself := foldl_pushCell_objs_self id L st2 spE hspE
  have hfspatial : ((L.foldl (fun s b => pushCell s id b) st2).objs id).spatial
      = some ({ spE with maps := L }) := by
    rw [hfoself, hE]
    rfl
  intro j
  by_cases hj : j = id
  · rw [hj]
    have hsc := setCached_objs_self (L.foldl (fun s b => pushCell s id b) st2) id c _ hfspatial
    constructor
    · intro h0
      rw [hsc] at h0
      cases h0
    · intro sp' hsp'
      rw [hsc] at hsp'
      have h3 : (some ({ { spE with maps := L } with
          xStart := some c.xStart, yStart := some c.yStart,
          xEnd := some c.xEnd, yEnd := some c.yEnd }) : Option Spatial) = some sp' := hsp'
      injection h3 with h3'
      subst h3'
      refine ⟨?_, hLnd, Or.inr ?_⟩
      · intro b
        show ((L.foldl (fun s b => pushCell s id b) st2).map.grid b).count id
          = (if b ∈ L then 1 else 0)
        rw [foldl_pushCell_count_self id L st2 b (hzero b)]
        by_cases hb : b ∈ L
        · rw [if_pos hb]
          exact List.count_eq_one_of_mem hLnd hb
        · rw [if_neg hb]
          exact List.count_eq_zero.mpr hb
      · show L = rangeCells (setCached (L.foldl (fun s b => pushCell s id b) st2) id c).map c
        rw [setCached_map, rangeCells_congr c hfw]
        exact hL
  · obtain ⟨hn, hs⟩ := h2 j
    have hoj : (setCached (L.foldl (fun s b => pushCell s id b) st2) id c).objs j
        = st2.objs j := by
      rw [setCached_objs_ne _ _ _ hj, foldl_pushCell_objs_ne id hj L st2]
    constructor
    · intro h0 b
      show ((L.foldl (fun s b => pushCell s id b) st2).map.grid b).count j = 0
      rw [foldl_pushCell_count_ne id j hj]
      apply hn ?_ b
      rw [← hoj]
      exact h0
    · intro sp' hsp'
      have hst : (st2.objs j).spatial = some sp' := by
        rw [← hoj]
        exact hsp'
      obtain ⟨hcnt, hnd, hbr⟩ := hs sp' hst
      refine ⟨?_, hnd, ?_⟩
      · intro b
        show ((L.foldl (fun s b => pushCell s id b) st2).map.grid b).count j
          = (if b ∈ sp'.maps then 1 else 0)
        rw [foldl_pushCell_count_ne id j hj]
        exact hcnt b
      · rcases hbr with h1 | h1
        · exact Or.inl h1
        · right
          rw [h1]
          have hwidth : (setCached (L.foldl (fun s b => pushCell s id b) st2) id c).map.width
              = st2.map.width := by
            rw [setCached_map]
            exact hfw
          exact (bucketsOfRange_congr sp' hwidth).symm



lemma insertBody_preserves_inv (st1 : St) (id : Nat) (sp : Spatial) (c : Coverage)
    (h1 : StInv st1) (hsp : (st1.objs id).spatial = some sp)
    (hc0 : 0 ≤ c.xStart) (hc1 : c.xEnd ≤ st1.map.width - 1) :
    StInv (insertBody st1 id sp c) := by
  unfold insertBody
  split
  · exact h1
  · dsimp only
    by_cases hmp : sp.maps.isEmpty
    · rw [if_pos hmp]
      have hE : sp.maps = [] := List.isEmpty_iff.mp hmp
      refine push_phase_inv st1 id sp c h1 hsp hE ?_ hc0 hc1 _ rfl
      intro b
      have hcb := ((h1 id).2 sp hsp).1 b
      rw [hE] at hcb
      simpa using hcb
    · rw [if_neg hmp]
      obtain ⟨hg, ho, hone, hcs, hw, hh⟩ := remove_spec_some st1 id true sp hsp
      have h2 : StInv (remove st1 id true) := remove_preserves_inv st1 id true h1
      have hspE : ((remove st1 id true).objs id).spatial = some ({ sp with maps := [] }) := by
        rw [ho]
      have hzero := remove_clears_id st1 id true sp h1 hsp
      refine push_phase_inv (remove st1 id true) id _ c h2 hspE rfl hzero hc0 ?_ _ ?_
      · rw [hw]
        exact hc1
      · exact (rangeCells_congr c hw).symm

lemma insert_preserves_inv (st : St) (id : Nat) (h : StInv st) : StInv (insert st id) := by
  have h1 := ensureHandle_preserves_inv st id h
  rcases hsp : ((ensureHandle st id).objs id).spatial with _ | sp
  · simp only [insert, hsp]
    exact h1
  · simp only [insert, hsp]
    exact insertBody_preserves_inv _ _ _ _ h1 hsp
      (coverage_xStart_nonneg _ _) (coverage_xEnd_le _ _)



lemma qcbGo_objs_spatial (stamp : Int) (cb : Nat → Bool) :
    ∀ (l : List Nat) (objs : Nat → Obj) (j : Nat),
      ((qcbGo stamp cb l objs).1 j).spatial = (objs j).spatial := by
  intro l
  induction l with
  | nil => intro objs j; rfl
  | cons i rest ih =>
      intro objs j
      rw [qcbGo_cons]
      by_cases hc : (objs i).checked = some stamp
      · rw [if_pos hc]
        exact ih objs j
      · rw [if_neg hc]
        by_cases hb : cb i = true
        · rw [if_pos hb]
        · rw [if_neg hb]
          dsimp only
          rw [ih _ j]
          by_cases hji : j = i
          · rw [hji, updObj_self]
          · rw [updObj_ne _ _ _ hji]

lemma queryCallback_preserves_inv (st : St) (a : AABB) (cb : Nat → Bool) (h : StInv st) :
    StInv (queryCallback st a cb).1 := by
  intro j
  obtain ⟨hn, hs⟩ := h j
  have hsp : (((queryCallback st a cb).1).objs j).spatial = (st.objs j).spatial := by
    unfold queryCallback
    exact qcbGo_objs_spatial _ _ _ _ j
  have hg : ((queryCallback st a cb).1).map = st.map := rfl
  constructor
  · intro h0 b
    rw [hg]
    apply hn ?_ b
    rw [← hsp]
    exact h0
  · intro sp' hsp'
    have hst : (st.objs j).spatial = some sp' := by
      rw [← hsp]
      exact hsp'
    obtain ⟨hcnt, hnd, hbr⟩ := hs sp' hst
    refine ⟨?_, hnd, ?_⟩
    · intro b
      rw [hg]
      exact hcnt b
    · rw [hg]
      exact hbr

lemma queryCallbackArticle_preserves_inv (st : St) (id : Nat) (cb : Nat → Bool) (h : StInv st) :
    StInv (queryCallbackArticle st id cb).1 := by
  intro j
  obtain ⟨hn, hs⟩ := h j
  have hsp : (((queryCallbackArticle st id cb).1).objs j).spatial = (st.objs j).spatial := by
    unfold queryCallbackArticle
    show ((qcbGo _ _ _ _).1 j).spatial = _
    rw [qcbGo_objs_spatial]
    by_cases hji : j = id
    · rw [hji, updObj_self]
    · rw [updObj_ne _ _ _ hji]
  have hg : ((queryCallbackArticle st id cb).1).map = st.map := rfl
  constructor
  · intro h0 b
    rw [hg]
    apply hn ?_ b
    rw [← hsp]
    exact h0
  · intro sp' hsp'
    have hst : (st.objs j).spatial = some sp' := by
      rw [← hsp]
      exact hsp'
    obtain ⟨hcnt, hnd, hbr⟩ := hs sp' hst
    refine ⟨?_, hnd, ?_⟩
    · intro b
      rw [hg]
      exact hcnt b
    · rw [hg]
      exact hbr

lemma foldl_insert_preserves_inv :
    ∀ (l : List Nat) (st : St), StInv st → StInv (l.foldl (fun s i => insert s i) st) := by
  intro l
  induction l with
  | nil => intro st h; exact h
  | cons i rest ih =>
      intro st h
      rw [List.foldl_cons]
      exact ih _ (insert_preserves_inv st i h)

lemma update_preserves_inv (st : St) (h : StInv st) : StInv (update st) := by
  unfold update
  cases hl : st.map.list
  · exact h
  · exact foldl_insert_preserves_inv _ st h



/-- C4 amended: the bucket-membership invariant actually maintained by the
code — every object with a handle occurs exactly once in each bucket its
handle lists and in no other bucket, the handle's bucket list has no
duplicates, and that list is either *empty* (`remove` empties it but retains
the cached cell range) or exactly the buckets of the cached clamped range —
is preserved by every public operation.  (The claimed stronger invariant,
that the listed buckets always equal the cached range's buckets, fails right
after `remove`, as the counterexample shows.) -/
theorem operations_preserve_handle_inv (st : St) (id : Nat) (h : StInv st) :
    StInv (insert st id) ∧ (∀ r, StInv (remove st id r)) ∧
    (∀ a cb, StInv (queryCallback st a cb).1) ∧
    (∀ cb, StInv (queryCallbackArticle st id cb).1) ∧
    StInv (update st) :=
  ⟨insert_preserves_inv st id h, fun r => remove_preserves_inv st id r h,
   fun a cb => queryCallback_preserves_inv st a cb h,
   fun cb => queryCallbackArticle_preserves_inv st id cb h,
   update_preserves_inv st h⟩

/-- Witness for the C4 amended theorem: the all-empty base state satisfies
the invariant, and so does the state after inserting the scenario item. -/
theorem operations_preserve_handle_inv_witness :
    StInv (baseSt ⟨5, 5, 15, 15⟩) ∧ StInv (insert (baseSt ⟨5, 5, 15, 15⟩) 0) := by
  have h : StInv (baseSt ⟨5, 5, 15, 15⟩) := by
    intro j
    constructor
    · intro _ b
      rfl
    · intro sp hsp
      exact Option.noConfusion hsp
  exact ⟨h, (operations_preserve_handle_inv (baseSt ⟨5, 5, 15, 15⟩) 0 h).1⟩

end SpatialMapModel
